import Mathlib

/-!
Verification development for the Patent Expiration API repository.

The Python source is shallowly embedded in Lean:
strings are lists of Unicode code points (`List Nat`), `datetime`
timestamps are integers measured in days (all time comparisons in the
source are order comparisons between timestamps, so any linearly
ordered carrier is faithful; `timedelta(days=n)` becomes the integer
`n`), Python dictionaries carrying heterogeneous patent data are
association lists over a small value type, and functions that can raise
exceptions return `Except`.  Network adapters are modelled against
response oracles: the embedding takes the HTTP statuses/payloads the
outside world would answer as explicit arguments and records how many
requests each code path issues.

Each definition mirrors one function of the source tree; the file/line
of the source is given in the doc comment.
-/

/-! ## Python string primitives (ASCII semantics, code points as `Nat`) -/

/-- Code points of a string literal, used to write concrete inputs. -/
def strL (s : String) : List Nat := s.data.map (fun c => c.toNat)

/-- ASCII whitespace recognized by Python `str.strip` (space, tab, LF,
VT, FF, CR). -/
def isSpaceB (c : Nat) : Bool :=
  decide (c = 32 ∨ c = 9 ∨ c = 10 ∨ c = 11 ∨ c = 12 ∨ c = 13)

/-- `str.upper` on one code point (ASCII range). -/
def upperChar (c : Nat) : Nat := if 97 ≤ c ∧ c ≤ 122 then c - 32 else c

/-- `str.lower` on one code point (ASCII range). -/
def lowerChar (c : Nat) : Nat := if 65 ≤ c ∧ c ≤ 90 then c + 32 else c

/-- Python `str.strip()`: drop leading and trailing whitespace. -/
def pyStrip (l : List Nat) : List Nat :=
  (l.dropWhile isSpaceB).rdropWhile isSpaceB

/-- Python `str.upper()`. -/
def pyUpper (l : List Nat) : List Nat := l.map upperChar

/-- Python `str.lower()`. -/
def pyLower (l : List Nat) : List Nat := l.map lowerChar

/-- Python `str.replace(" ", "")`: remove every space (code point 32). -/
def removeSpaces (l : List Nat) : List Nat := l.filter (fun c => decide (c ≠ 32))

/-- `patent.strip().upper().replace(" ", "")`, the normalization applied
both in `app/api/v1/endpoints.py` line 71 and
`app/services/patent_service.py` line 56. -/
def normalizePatent (l : List Nat) : List Nat :=
  removeSpaces (pyUpper (pyStrip l))

/-- `a.startswith(b)` for code-point lists (first argument is the
candidate prefix). -/
def strStarts : List Nat → List Nat → Bool
  | [], _ => true
  | _ :: _, [] => false
  | a :: ps, b :: ss => a == b && strStarts ps ss

def isDigitB (c : Nat) : Bool := decide (48 ≤ c ∧ c ≤ 57)

/-- Modelled from the spec: the regular expression `^(EP|US)\d\x7b7,\x7d`
(Python `re.match` semantics, anchored at the start only): the string
starts with `EP` or `US` followed by at least seven digits. -/
def matchesIdPattern (s : List Nat) : Bool :=
  (strStarts (strL "EP") s || strStarts (strL "US") s)
    && decide (7 ≤ ((s.drop 2).takeWhile isDigitB).length)

/-! ### Facts about the string primitives -/

theorem upperChar_upperChar (c : Nat) : upperChar (upperChar c) = upperChar c := by
  unfold upperChar
  split_ifs <;> omega

theorem isSpaceB_upperChar (c : Nat) : isSpaceB (upperChar c) = isSpaceB c := by
  unfold upperChar isSpaceB
  split_ifs with h
  · simp only [decide_eq_decide]
    omega
  · rfl

theorem upperChar_ne32 (c : Nat) :
    (decide (upperChar c ≠ 32)) = (decide (c ≠ 32)) := by
  unfold upperChar
  split_ifs with h
  · simp only [decide_eq_decide]
    omega
  · rfl

theorem ne32_of_not_space {c : Nat} (h : isSpaceB c = false) :
    (decide (c ≠ 32)) = true := by
  simp only [isSpaceB, decide_eq_false_iff_not] at h
  simp only [decide_eq_true_eq]
  omega

/-- The head of a non-empty `dropWhile` result fails the predicate. -/
theorem dropWhile_head_not {α : Type} {p : α → Bool} :
    ∀ {l : List α} {a : α} {t : List α}, l.dropWhile p = a :: t → p a = false := by
  intro l
  induction l with
  | nil => intro a t h; simp [List.dropWhile] at h
  | cons b bs ih =>
    intro a t h
    rw [List.dropWhile_cons] at h
    by_cases hb : p b = true
    · rw [if_pos hb] at h
      exact ih h
    · rw [if_neg hb] at h
      injection h with h1 _
      subst h1
      exact Bool.of_not_eq_true hb

/-- The combined uppercase+despace step applied to a string with a
non-whitespace head again has a non-whitespace head, hence a front
strip of it is the identity. -/
theorem dropWhile_despace_upper (s : List Nat)
    (hs : s.dropWhile isSpaceB = s) :
    (removeSpaces (pyUpper s)).dropWhile isSpaceB = removeSpaces (pyUpper s) := by
  cases s with
  | nil => rfl
  | cons a t =>
    have ha : isSpaceB a = false := dropWhile_head_not hs
    have hu32 : (decide (upperChar a ≠ 32)) = true := by
      rw [upperChar_ne32]; exact ne32_of_not_space ha
    have husp : isSpaceB (upperChar a) = false := by
      rw [isSpaceB_upperChar]; exact ha
    simp only [removeSpaces, pyUpper, List.map_cons, List.filter_cons, hu32, if_true]
    rw [List.dropWhile_cons, if_neg (by simp [husp])]

theorem removeSpaces_pyUpper_reverse (s : List Nat) :
    (removeSpaces (pyUpper s)).reverse = removeSpaces (pyUpper s.reverse) := by
  simp [removeSpaces, pyUpper, List.filter_reverse, List.map_reverse]

/-- `pyStrip` leaves a string whose front strip is the identity. -/
theorem dropWhile_pyStrip (l : List Nat) :
    (pyStrip l).dropWhile isSpaceB = pyStrip l := by
  unfold pyStrip
  rcases h : (l.dropWhile isSpaceB).rdropWhile isSpaceB with _ | ⟨a, t⟩
  · rfl
  · have hpre : (l.dropWhile isSpaceB).rdropWhile isSpaceB <+: l.dropWhile isSpaceB :=
      List.rdropWhile_prefix _ _
    rw [h] at hpre
    rcases hpre with ⟨u, hu⟩
    have hne : l.dropWhile isSpaceB = a :: (t ++ u) := by
      rw [← hu, List.cons_append]
    have ha : isSpaceB a = false := dropWhile_head_not hne
    rw [List.dropWhile_cons, if_neg (by simp [ha])]

/-- `pyStrip` leaves a string whose back strip is the identity. -/
theorem rdropWhile_pyStrip (l : List Nat) :
    (pyStrip l).rdropWhile isSpaceB = pyStrip l :=
  List.rdropWhile_idempotent _ _

/-- The despaced, uppercased form of a fully stripped string needs no
stripping at all. -/
theorem pyStrip_despace_upper (s : List Nat)
    (hfront : s.dropWhile isSpaceB = s)
    (hback : s.rdropWhile isSpaceB = s) :
    pyStrip (removeSpaces (pyUpper s)) = removeSpaces (pyUpper s) := by
  unfold pyStrip
  rw [dropWhile_despace_upper s hfront]
  unfold List.rdropWhile
  rw [removeSpaces_pyUpper_reverse]
  have hrev : s.reverse.dropWhile isSpaceB = s.reverse := by
    have h2 := congrArg List.reverse hback
    unfold List.rdropWhile at h2
    rw [List.reverse_reverse] at h2
    calc s.reverse.dropWhile isSpaceB
        = ((s.reverse.dropWhile isSpaceB).reverse).reverse := by
          rw [List.reverse_reverse]
      _ = s.reverse := by rw [h2, List.reverse_reverse]
  rw [dropWhile_despace_upper s.reverse hrev, ← removeSpaces_pyUpper_reverse,
    List.reverse_reverse]

theorem pyUpper_removeSpaces (l : List Nat) :
    pyUpper (removeSpaces l) = removeSpaces (pyUpper l) := by
  unfold pyUpper removeSpaces
  rw [List.filter_map]
  congr 1
  apply List.filter_congr
  intro c _
  simpa using (upperChar_ne32 c).symm

theorem pyUpper_pyUpper (l : List Nat) : pyUpper (pyUpper l) = pyUpper l := by
  unfold pyUpper
  rw [List.map_map]
  apply List.map_congr_left
  intro c _
  exact upperChar_upperChar c

theorem removeSpaces_removeSpaces (l : List Nat) :
    removeSpaces (removeSpaces l) = removeSpaces l := by
  unfold removeSpaces
  rw [List.filter_filter]
  apply List.filter_congr
  intro c _
  simp

/-- Normalization is idempotent (helper used by the service model: the
endpoint normalizes and the service normalizes again). -/
theorem normalizePatent_idem (l : List Nat) :
    normalizePatent (normalizePatent l) = normalizePatent l := by
  unfold normalizePatent
  rw [pyStrip_despace_upper (pyStrip l) (dropWhile_pyStrip l) (rdropWhile_pyStrip l)]
  rw [pyUpper_removeSpaces, removeSpaces_removeSpaces, pyUpper_pyUpper]

/-! ## Python dictionaries of patent data -/

/-- Values stored in the patent-data dictionaries that flow between the
adapters, the resolver and the cache. -/
inductive PyVal where
  | vStr (s : List Nat)
  | vNone
  | vBool (b : Bool)
  | vTime (t : Int)
  | vDict (fields : List (List Nat × PyVal))

/-- A Python dict with string keys, as an association list (keys are
unique at every call site of this development). -/
abbrev PyDict := List (List Nat × PyVal)

/-- `d.get(k)` / `d[k]`-lookup: `none` models a missing key. -/
def dictGet (d : PyDict) (k : List Nat) : Option PyVal :=
  match d with
  | [] => none
  | (k', v) :: rest => if k' = k then some v else dictGet rest k

/-- `d[k] = v`: overwrite the key in place or append it. -/
def dictSet (d : PyDict) (k : List Nat) (v : PyVal) : PyDict :=
  match d with
  | [] => [(k, v)]
  | (k', v') :: rest =>
      if k' = k then (k, v) :: rest else (k', v') :: dictSet rest k v

/-- `d.pop(k, default)`: the removed value (if present) and the
remaining dict. -/
def dictPop (d : PyDict) (k : List Nat) : Option PyVal × PyDict :=
  match d with
  | [] => (none, [])
  | (k', v) :: rest =>
      if k' = k then (some v, rest)
      else
        let (r, d') := dictPop rest k
        (r, (k', v) :: d')

/-! ## Settings (`app/config.py`, default values of the `Settings` model) -/

def cache_ttl_days : Int := 30

def rate_limit_free : Nat := 20

def rate_limit_basic : Nat := 1000

def rate_limit_pro : Nat := 10000

def max_retries : Nat := 3

def request_timeout : Nat := 30

/-! ## Cache service (`app/services/cache_service.py`)

The `patent_cache` table keyed by `patent_number` becomes a list of
entries; the engine never creates two entries for one key, and the
model's `save` updates the first match just as the SQL `UPDATE` by
unique key does.  Columns `created_at`/`updated_at` are write-only
audit metadata never read by the engine and are omitted. -/

structure CacheEntry where
  patent_number : List Nat
  status : Option PyVal
  expiry_date : Option PyVal
  jurisdictions : Option PyVal
  lapse_reason : Option PyVal
  source : Option PyVal
  raw_data : Option PyVal
  last_fetched : Int
  fetch_count : Nat

abbrev CacheState := List CacheEntry

/-- `db.query(PatentCache).filter(PatentCache.patent_number == pn).first()` -/
def findEntry (st : CacheState) (pn : List Nat) : Option CacheEntry :=
  st.find? (fun e => e.patent_number == pn)

/-- Committing a mutation of the row found by `findEntry`. -/
def replaceFirst (st : CacheState) (pn : List Nat) (e' : CacheEntry) : CacheState :=
  match st with
  | [] => []
  | e :: rest =>
      if e.patent_number == pn then e' :: rest else e :: replaceFirst rest pn e'

/-- `CacheService.get_cached_patent` (cache_service.py lines 17-46):
return the entry only when younger than the TTL, bumping `fetch_count`
on a hit; a stale entry is left in place untouched. -/
def get_cached_patent (st : CacheState) (now : Int) (pn : List Nat) :
    Option CacheEntry × CacheState :=
  match findEntry st pn with
  | none => (none, st)
  | some e =>
      if e.last_fetched < now - cache_ttl_days then
        (none, st)
      else
        let e' := { e with fetch_count := e.fetch_count + 1 }
        (some e', replaceFirst st pn e')

inductive PyErr where
  | keyError
  | typeError

/-- `CacheService.save_patent_to_cache` (cache_service.py lines 49-99).
The function reads `patent_data["patent"]` (a bracket access, so a
missing key raises `KeyError`); `typeError` covers a non-string value
under that key, which no call site of the repository produces. -/
def save_patent_to_cache (st : CacheState) (now : Int) (patent_data : PyDict) :
    Except PyErr (CacheState × CacheEntry) :=
  match dictGet patent_data (strL "patent") with
  | none => .error .keyError
  | some (.vStr pn) =>
      match findEntry st pn with
      | some e =>
          let e' : CacheEntry := { e with
            status := dictGet patent_data (strL "status")
            expiry_date := dictGet patent_data (strL "expiry_date")
            jurisdictions := dictGet patent_data (strL "jurisdictions")
            lapse_reason := dictGet patent_data (strL "lapse_reason")
            source := dictGet patent_data (strL "source")
            raw_data := dictGet patent_data (strL "raw_data")
            last_fetched := now
            fetch_count := e.fetch_count + 1 }
          .ok (replaceFirst st pn e', e')
      | none =>
          let e : CacheEntry := {
            patent_number := pn
            status := dictGet patent_data (strL "status")
            expiry_date := dictGet patent_data (strL "expiry_date")
            jurisdictions := dictGet patent_data (strL "jurisdictions")
            lapse_reason := dictGet patent_data (strL "lapse_reason")
            source := dictGet patent_data (strL "source")
            raw_data := dictGet patent_data (strL "raw_data")
            last_fetched := now
            fetch_count := 1 }
          .ok (st ++ [e], e)
  | some _ => .error .typeError

/-- Insertion step of the `ORDER BY fetch_count DESC` model. -/
def insertByCountDesc (e : CacheEntry) : List CacheEntry → List CacheEntry
  | [] => [e]
  | x :: xs =>
      if e.fetch_count ≤ x.fetch_count then x :: insertByCountDesc e xs
      else e :: x :: xs

/-- A deterministic descending sort by `fetch_count`. -/
def sortByCountDesc : List CacheEntry → List CacheEntry
  | [] => []
  | x :: xs => insertByCountDesc x (sortByCountDesc xs)

/-- `CacheService.get_stale_patents` (cache_service.py lines 118-136):
entries older than the TTL, most popular first. -/
def get_stale_patents (st : CacheState) (now : Int) (limit : Nat) :
    List CacheEntry :=
  (sortByCountDesc (st.filter
    (fun e => decide (e.last_fetched < now - cache_ttl_days)))).take limit

theorem mem_insertByCountDesc (a e : CacheEntry) (l : List CacheEntry) :
    a ∈ insertByCountDesc e l ↔ a = e ∨ a ∈ l := by
  induction l with
  | nil => simp [insertByCountDesc]
  | cons x xs ih =>
    unfold insertByCountDesc
    split_ifs with h
    · simp only [List.mem_cons, ih]
      tauto
    · simp only [List.mem_cons]

theorem mem_sortByCountDesc (a : CacheEntry) (l : List CacheEntry) :
    a ∈ sortByCountDesc l ↔ a ∈ l := by
  induction l with
  | nil => simp [sortByCountDesc]
  | cons x xs ih =>
    unfold sortByCountDesc
    rw [mem_insertByCountDesc]
    simp only [List.mem_cons, ih]

theorem length_insertByCountDesc (e : CacheEntry) (l : List CacheEntry) :
    (insertByCountDesc e l).length = l.length + 1 := by
  induction l with
  | nil => rfl
  | cons x xs ih =>
    unfold insertByCountDesc
    split_ifs with h
    · simp [ih]
    · simp

theorem length_sortByCountDesc (l : List CacheEntry) :
    (sortByCountDesc l).length = l.length := by
  induction l with
  | nil => rfl
  | cons x xs ih =>
    unfold sortByCountDesc
    rw [length_insertByCountDesc, ih, List.length_cons]

/-! ## Patent resolver (`app/services/patent_service.py`) and the
status endpoint (`app/api/v1/endpoints.py`)

The two wired adapters are modelled as oracles giving the value that
`_try_epo` / `_try_uspto` would return: `none` when the adapter found
no match or failed (both helpers catch every exception and return
`None`), `some d` the normalized record dict (the adapters emit dicts
that already carry a `source` key, so `_normalize_response` returns
them unchanged). -/

structure AdapterOracle where
  epoResp : Option PyDict
  usptoResp : Option PyDict

/-- A nullable column value as the Python value stored in a dict. -/
def optVal : Option PyVal → PyVal
  | none => .vNone
  | some v => v

/-- The f-string `f"\x7bcached.source\x7d (cached)"`.  At every state the
resolver produces, the stored source is a string; the remaining cases
spell out Python's `str()` of the other value forms. -/
def sourceCachedLabel : Option PyVal → List Nat
  | some (.vStr s) => s ++ strL " (cached)"
  | some (.vBool true) => strL "True (cached)"
  | some (.vBool false) => strL "False (cached)"
  | some (.vTime _) => strL "time (cached)"
  | some (.vDict _) => strL "dict (cached)"
  | some .vNone => strL "None (cached)"
  | none => strL "None (cached)"

/-- The dict returned on a cache hit (patent_service.py lines 65-74). -/
def cachedHitDict (e : CacheEntry) : PyDict :=
  [ (strL "patent_number", .vStr e.patent_number)
  , (strL "status", optVal e.status)
  , (strL "expiry_date", optVal e.expiry_date)
  , (strL "jurisdictions", optVal e.jurisdictions)
  , (strL "lapse_reason", optVal e.lapse_reason)
  , (strL "source", .vStr (sourceCachedLabel e.source))
  , (strL "last_fetched", .vTime e.last_fetched)
  , (strL "cache_hit", .vBool true) ]

structure ResolveResult where
  outcome : Except PyErr (Option PyDict)
  state : CacheState
  epoCalls : Nat
  usptoCalls : Nat

/-- `PatentService.get_patent_status` (patent_service.py lines 40-114):
normalize, consult the cache, select the adapter by prefix, write a
fresh result through `save_patent_to_cache` (whose `KeyError`
propagates: the save is not inside any try block of the service), and
count how many times each adapter is invoked. -/
def patentServiceGetStatus (oracle : AdapterOracle) (st : CacheState)
    (now : Int) (patent_number : List Nat) : ResolveResult :=
  let pn := normalizePatent patent_number
  match get_cached_patent st now pn with
  | (some cached, st') =>
      { outcome := .ok (some (cachedHitDict cached)), state := st',
        epoCalls := 0, usptoCalls := 0 }
  | (none, st') =>
      if strStarts (strL "EP") pn then
        match oracle.epoResp with
        | some d =>
            match save_patent_to_cache st' now d with
            | .error e =>
                { outcome := .error e, state := st',
                  epoCalls := 1, usptoCalls := 0 }
            | .ok (st'', _) =>
                { outcome := .ok (some (dictSet d (strL "cache_hit") (.vBool false))),
                  state := st'', epoCalls := 1, usptoCalls := 0 }
        | none =>
            { outcome := .ok none, state := st', epoCalls := 1, usptoCalls := 0 }
      else if strStarts (strL "US") pn then
        match oracle.usptoResp with
        | some d =>
            match save_patent_to_cache st' now d with
            | .error e =>
                { outcome := .error e, state := st',
                  epoCalls := 0, usptoCalls := 1 }
            | .ok (st'', _) =>
                { outcome := .ok (some (dictSet d (strL "cache_hit") (.vBool false))),
                  state := st'', epoCalls := 0, usptoCalls := 1 }
        | none =>
            { outcome := .ok none, state := st', epoCalls := 0, usptoCalls := 1 }
      else
        { outcome := .ok none, state := st', epoCalls := 0, usptoCalls := 0 }

inductive ApiOutcome where
  | validationError
  | notFound
  | internalError
  | ok (payload : PyDict) (cache_hit : Bool)

structure RequestResult where
  outcome : ApiOutcome
  state : CacheState
  epoCalls : Nat
  usptoCalls : Nat

/-- `patent_data.pop("cache_hit", False)` coerced into the response
field (the value is a bool at every reachable state). -/
def asBool : Option PyVal → Bool
  | some (.vBool b) => b
  | _ => false

/-- The `/status` endpoint `get_patent_status` (endpoints.py lines
50-146): normalize, reject unless the input starts with `EP` or `US`
(HTTP 400 ValidationError raised before the service, hence before any
cache or adapter access), delegate to the service, translate `None`
into HTTP 404 NotFound and an escaped exception into the generic
HTTP 500 handler. -/
def handleRequest (oracle : AdapterOracle) (st : CacheState) (now : Int)
    (raw : List Nat) : RequestResult :=
  let patent := normalizePatent raw
  if strStarts (strL "EP") patent || strStarts (strL "US") patent then
    let r := patentServiceGetStatus oracle st now patent
    match r.outcome with
    | .error _ => ⟨.internalError, r.state, r.epoCalls, r.usptoCalls⟩
    | .ok none => ⟨.notFound, r.state, r.epoCalls, r.usptoCalls⟩
    | .ok (some d) =>
        let (chv, d') := dictPop d (strL "cache_hit")
        ⟨.ok d' (asBool chv), r.state, r.epoCalls, r.usptoCalls⟩
  else
    ⟨.validationError, st, 0, 0⟩

/-! ## Adapter network control flow
(`app/services/epo_service.py`, `app/services/uspto_service.py`)

These models follow the HTTP call structure of the adapters against an
oracle of network answers and record how many requests each endpoint
receives during one adapter invocation.  Timestamps in the EPO token
model are minutes (its only window constant, the 15-minute token cache,
lives in that unit). -/

/-- Both adapters construct every `httpx.AsyncClient` with
`timeout=30.0` (epo_service.py lines 36 and 70, uspto_service.py line
48): the timeout carried by every external request, in seconds. -/
def epoHttpTimeout : Nat := 30

def usptoHttpTimeout : Nat := 30

/-- Token endpoint lifetime margin: `_get_token` caches the token for
15 minutes (epo_service.py line 52). -/
def token_cache_minutes : Int := 15

/-- Adapter-local token state (`self.token`, `self.token_expiry`). -/
structure EpoToken where
  token : Option (List Nat)
  token_expiry : Option Int

/-- What the network answers during one EPO fetch: the token
endpoint's HTTP status and token value, and the data endpoint's HTTP
status. -/
structure EpoNet where
  tokenStatus : Nat
  tokenValue : List Nat
  dataStatus : Nat

structure EpoTrace where
  found : Bool
  tokenAttempts : Nat
  dataAttempts : Nat
  tokenState : EpoToken

/-- The `self.token and self.token_expiry and datetime.now() <
self.token_expiry` test of `_get_token` (epo_service.py line 29). -/
def epoCachedTokenValid (tok : EpoToken) (now : Int) : Bool :=
  match tok.token, tok.token_expiry with
  | some _, some exp => decide (now < exp)
  | _, _ => false

/-- `EPOService.get_patent_status` with `_get_token` inlined
(epo_service.py lines 26-107): reuse a cached unexpired token,
otherwise issue exactly one token request (a non-200 answer raises,
and the outer `except` turns it into `None`); then issue exactly one
data request, returning `None` on any non-200 status.  No request is
ever reissued, and no exception escapes. -/
def epoGetPatentStatus (tok : EpoToken) (now : Int) (net : EpoNet) : EpoTrace :=
  if epoCachedTokenValid tok now then
    { found := net.dataStatus = 200, tokenAttempts := 0, dataAttempts := 1,
      tokenState := tok }
  else if net.tokenStatus ≠ 200 then
    { found := false, tokenAttempts := 1, dataAttempts := 0, tokenState := tok }
  else
    let tok' : EpoToken :=
      { token := some net.tokenValue,
        token_expiry := some (now + token_cache_minutes) }
    { found := net.dataStatus = 200, tokenAttempts := 1, dataAttempts := 1,
      tokenState := tok' }

/-- What the network answers during one USPTO fetch. -/
structure UsptoNet where
  status : Nat
  errorFlag : Bool
  patentsFound : Bool

structure UsptoTrace where
  found : Bool
  attempts : Nat

/-- `USPTOService.get_patent_status` (uspto_service.py lines 22-104):
one POST to the search endpoint; non-200, an `error` body or an empty
`patents` list all yield `None`; nothing is retried and no exception
escapes. -/
def usptoGetPatentStatus (net : UsptoNet) : UsptoTrace :=
  if net.status ≠ 200 then { found := false, attempts := 1 }
  else if net.errorFlag then { found := false, attempts := 1 }
  else if ¬net.patentsFound then { found := false, attempts := 1 }
  else { found := true, attempts := 1 }

/-- Modelled from the spec: the retry discipline the spec asserts — a
transient failure (here: a 5xx data answer) causes the call to be
reissued, so a fetch against a persistently failing endpoint issues at
least a second request (the spec's configured maximum,
`max_retries = 3`, allows it).  This is the proposition the source is
measured against for claim C4. -/
def epoRetriesOnTransient : Prop :=
  ∀ (net : EpoNet) (now : Int), 500 ≤ net.dataStatus → net.dataStatus < 600 →
    net.tokenStatus = 200 →
    2 ≤ (epoGetPatentStatus ⟨none, none⟩ now net).dataAttempts

/-! ## Quota tracking (`app/utils/rate_limiter.py`,
`app/middleware/advanced_rate_limiter.py`)

Timestamps here are days (the only window constant, 30 days, lives in
that unit).  Each model covers one caller key: the per-key record of
the `defaultdict` plus the outcome tuple of one call. -/

def quota_window_days : Int := 30

/-- `RateLimiter._get_tier_limit` (utils/rate_limiter.py lines 29-37):
a dict lookup on the lowercased label with the free limit as default;
the dict also carries an `enterprise` key bound to `999999`. -/
def get_tier_limit (tier : List Nat) : Nat :=
  let t := pyLower tier
  if t = strL "free" then rate_limit_free
  else if t = strL "basic" then rate_limit_basic
  else if t = strL "pro" then rate_limit_pro
  else if t = strL "enterprise" then 999999
  else rate_limit_free

/-- Per-key record of `RateLimiter.usage`; the `defaultdict` creates
`\x7b"count": 0, "reset_date": None\x7d`. -/
structure Usage where
  count : Nat
  reset_date : Option Int

def initialUsage : Usage := { count := 0, reset_date := none }

/-- `RateLimiter._should_reset` (lines 39-43). -/
def should_reset (reset_date : Option Int) (now : Int) : Bool :=
  match reset_date with
  | none => true
  | some r => decide (now ≥ r)

structure LimitOutcome where
  allowed : Bool
  remaining : Nat
  limit : Nat
  usage : Usage

/-- `RateLimiter.check_rate_limit` (lines 45-77) for one key whose
stored record is `u`, with `limit = _get_tier_limit(tier)`: lazily
roll the window, then check, then increment.  The returned `usage` is
the record left in the store (the reset mutates the stored dict even
when the call is then rejected). -/
def check_rate_limit (u : Usage) (now : Int) (limit : Nat) : LimitOutcome :=
  let u1 := if should_reset u.reset_date now
    then { count := 0, reset_date := some (now + quota_window_days) }
    else u
  if u1.count ≥ limit then
    { allowed := false, remaining := 0, limit := limit, usage := u1 }
  else
    let u2 : Usage := { u1 with count := u1.count + 1 }
    { allowed := true, remaining := limit - u2.count, limit := limit, usage := u2 }

/-- Sequential executions of `check_rate_limit` for one key. -/
def run_rate_limiter (limit : Nat) : Usage → List Int → Usage
  | u, [] => u
  | u, t :: ts => run_rate_limiter limit (check_rate_limit u t limit).usage ts

/-- `APIKeyRateLimiter._get_limit` (middleware/advanced_rate_limiter.py
lines 59-61): the label reaching it was already lowercased by
`_get_user_tier`; its dict has no `enterprise` key. -/
def adv_get_limit (tier : List Nat) : Nat :=
  if tier = strL "free" then rate_limit_free
  else if tier = strL "basic" then rate_limit_basic
  else if tier = strL "pro" then rate_limit_pro
  else rate_limit_free

/-- Per-key record of `APIKeyRateLimiter.requests`; its `defaultdict`
initializes `reset_at = now + 30 days` at creation. -/
structure AdvUsage where
  count : Nat
  reset_at : Int

inductive AdvOutcome where
  | rateLimited (resetAt : Int)
  | admitted (remaining : Nat)

/-- `APIKeyRateLimiter.check_rate_limit` core (lines 79-101) for one
key: lazily roll the window, raise `RateLimitExceededException` at the
limit, otherwise increment and record the remaining budget. -/
def adv_check_rate_limit (u : AdvUsage) (now : Int) (limit : Nat) :
    AdvOutcome × AdvUsage :=
  let u1 := if now ≥ u.reset_at
    then { count := 0, reset_at := now + quota_window_days }
    else u
  if u1.count ≥ limit then
    (.rateLimited u1.reset_at, u1)
  else
    let u2 : AdvUsage := { u1 with count := u1.count + 1 }
    (.admitted (limit - u2.count), u2)

/-! ## Operation sequences against the cache (for the popularity
counter) -/

inductive CacheOp where
  | get
  | put (d : PyDict)

/-- Run a timestamped sequence of cache operations on one identifier,
counting the operations the store actually tallies: every successful
`put` and every `get` answered as a hit.  A `KeyError` from a put
aborts the run exactly as the Python exception would. -/
def runCacheOps (pn : List Nat) : CacheState → List (Int × CacheOp) →
    Except PyErr (CacheState × Nat)
  | st, [] => .ok (st, 0)
  | st, (t, .get) :: rest =>
      let r := get_cached_patent st t pn
      match runCacheOps pn r.snd rest with
      | .error e => .error e
      | .ok (s, n) => .ok (s, n + (if r.fst.isSome then 1 else 0))
  | st, (t, .put d) :: rest =>
      match save_patent_to_cache st t d with
      | .error e => .error e
      | .ok (st', _) =>
          match runCacheOps pn st' rest with
          | .error e => .error e
          | .ok (s, n) => .ok (s, n + 1)

/-- The stored popularity counter of one identifier (0 when absent). -/
def countOf (st : CacheState) (pn : List Nat) : Nat :=
  match findEntry st pn with
  | some e => e.fetch_count
  | none => 0

/-! ## Helper lemmas on the embedded services -/

theorem get_cached_patent_miss_state (st : CacheState) (now : Int) (pn : List Nat)
    (h : (get_cached_patent st now pn).fst = none) :
    get_cached_patent st now pn = (none, st) := by
  unfold get_cached_patent at h ⊢
  rcases hf : findEntry st pn with _ | e
  · simp [hf]
  · simp only [hf] at h ⊢
    by_cases hs : e.last_fetched < now - cache_ttl_days
    · rw [if_pos hs]
    · rw [if_neg hs] at h
      simp at h

theorem findEntry_replaceFirst (st : CacheState) (pn : List Nat) (e' : CacheEntry)
    (hm : (e'.patent_number == pn) = true)
    (h : (findEntry st pn).isSome = true) :
    findEntry (replaceFirst st pn e') pn = some e' := by
  induction st with
  | nil => simp [findEntry] at h
  | cons x xs ih =>
    unfold replaceFirst
    by_cases hx : (x.patent_number == pn) = true
    · rw [if_pos hx]
      exact List.find?_cons_of_pos (p := fun e => e.patent_number == pn) xs hm
    · rw [if_neg hx]
      unfold findEntry at h ⊢
      rw [List.find?_cons_of_neg (p := fun e => e.patent_number == pn) xs hx] at h
      rw [List.find?_cons_of_neg (p := fun e => e.patent_number == pn)
        (replaceFirst xs pn e') hx]
      exact ih h

theorem countOf_get_step (st : CacheState) (now : Int) (pn : List Nat) :
    countOf (get_cached_patent st now pn).snd pn =
      countOf st pn + (if (get_cached_patent st now pn).fst.isSome then 1 else 0) := by
  unfold get_cached_patent
  rcases hf : findEntry st pn with _ | e
  · simp
  · simp only [hf]
    by_cases hs : e.last_fetched < now - cache_ttl_days
    · rw [if_pos hs]
      simp
    · rw [if_neg hs]
      have hf' : List.find? (fun x : CacheEntry => x.patent_number == pn) st = some e := hf
      have hp : (e.patent_number == pn) = true :=
        List.find?_some (p := fun x : CacheEntry => x.patent_number == pn) (a := e) hf'
      have hfs : (findEntry st pn).isSome = true := by rw [hf]; rfl
      have h2 := findEntry_replaceFirst st pn
        { e with fetch_count := e.fetch_count + 1 } (by simpa using hp) hfs
      show countOf (replaceFirst st pn { e with fetch_count := e.fetch_count + 1 }) pn
        = countOf st pn + 1
      unfold countOf
      rw [h2, hf]

theorem countOf_append_single (st : CacheState) (pn : List Nat) (e : CacheEntry)
    (hf : findEntry st pn = none) (he : (e.patent_number == pn) = true) :
    countOf (st ++ [e]) pn = e.fetch_count := by
  unfold findEntry at hf
  unfold countOf findEntry
  rw [List.find?_append, hf, Option.none_or,
    List.find?_cons_of_pos (p := fun x : CacheEntry => x.patent_number == pn) [] he]

theorem countOf_put_step (st : CacheState) (now : Int) (pn : List Nat) (d : PyDict)
    (hd : dictGet d (strL "patent") = some (.vStr pn))
    (st' : CacheState) (e'' : CacheEntry)
    (h : save_patent_to_cache st now d = .ok (st', e'')) :
    countOf st' pn = countOf st pn + 1 := by
  unfold save_patent_to_cache at h
  rw [hd] at h
  rcases hf : findEntry st pn with _ | e
  · simp only [hf] at h
    injection h with h
    injection h with h1 h2
    subst h1
    rw [countOf_append_single st pn _ hf (by simp)]
    simp [countOf, hf]
  · simp only [hf] at h
    injection h with h
    injection h with h1 h2
    subst h1
    have hf' : List.find? (fun x : CacheEntry => x.patent_number == pn) st = some e := hf
    have hp : (e.patent_number == pn) = true :=
      List.find?_some (p := fun x : CacheEntry => x.patent_number == pn) (a := e) hf'
    have hfs : (findEntry st pn).isSome = true := by rw [hf]; rfl
    unfold countOf
    rw [findEntry_replaceFirst st pn _ (by simpa using hp) hfs, hf]

theorem strStarts_US_not_EP {s : List Nat}
    (h : strStarts (strL "US") s = true) : strStarts (strL "EP") s = false := by
  match s with
  | [] => simp [strStarts, strL] at h
  | a :: t =>
    have ha : a = 85 := by
      have h' : ((85 == a) && strStarts [83] t) = true := h
      have h2 := (Bool.and_eq_true _ _).mp h'
      exact (eq_of_beq h2.1).symm
    subst ha
    show ((69 == 85) && strStarts [80] t) = false
    rfl

/-! ## Claim C3 — popularity counter -/

/-- C3 (amended): over any timestamped sequence of `get`/`put`
operations on one identifier (each put carrying that identifier under
the `patent` key), the popularity counter grows by exactly the number
of operations the store tallies — every put and every get answered as
a fresh hit — and in particular it never decreases.  Stale or absent
gets are not counted by the code. -/
theorem C3_popularity_counter (pn : List Nat) (ops : List (Int × CacheOp)) :
    ∀ (st st' : CacheState) (n : Nat),
      (∀ t d, (t, CacheOp.put d) ∈ ops →
        dictGet d (strL "patent") = some (.vStr pn)) →
      runCacheOps pn st ops = .ok (st', n) →
      countOf st' pn = countOf st pn + n ∧ countOf st pn ≤ countOf st' pn := by
  induction ops with
  | nil =>
    intro st st' n _ h
    unfold runCacheOps at h
    injection h with h
    injection h with h1 h2
    subst h1
    subst h2
    omega
  | cons op rest ih =>
    rcases op with ⟨t, o⟩
    intro st st' n hmem h
    have hrest : ∀ t d, (t, CacheOp.put d) ∈ rest →
        dictGet d (strL "patent") = some (.vStr pn) :=
      fun t d hm => hmem t d (List.mem_cons_of_mem _ hm)
    cases o with
    | get =>
      simp only [runCacheOps] at h
      rcases hrec : runCacheOps pn (get_cached_patent st t pn).snd rest with e | ⟨s, m⟩
      · rw [hrec] at h
        exact absurd h (by simp)
      · rw [hrec] at h
        injection h with h
        injection h with h1 h2
        subst h1
        subst h2
        have hstep := countOf_get_step st t pn
        have hih := ih (get_cached_patent st t pn).snd s m hrest hrec
        omega
    | put d =>
      have hd : dictGet d (strL "patent") = some (.vStr pn) :=
        hmem t d (List.mem_cons_self _ _)
      simp only [runCacheOps] at h
      rcases hsave : save_patent_to_cache st t d with e | ⟨st2, e''⟩
      · rw [hsave] at h
        exact absurd h (by simp)
      · simp only [hsave] at h
        rcases hrec : runCacheOps pn st2 rest with e | ⟨s, m⟩
        · rw [hrec] at h
          exact absurd h (by simp)
        · rw [hrec] at h
          injection h with h
          injection h with h1 h2
          subst h1
          subst h2
          have hstep := countOf_put_step st t pn d hd st2 e'' hsave
          have hih := ih st2 s m hrest hrec
          omega

def c3pn : List Nat := strL "EP0683520"

def c3PutDict : PyDict := [(strL "patent", .vStr c3pn)]

def c3Entry : CacheEntry :=
  { patent_number := c3pn, status := none, expiry_date := none,
    jurisdictions := none, lapse_reason := none, source := none,
    raw_data := none, last_fetched := 0, fetch_count := 1 }

/-- C3 counterexample: a put on day 0 followed by a get on day 31
(stale, TTL is 30 days) is a sequence of two operations after which the
counter holds 1, not 2 — a stale read does not increment it, refuting
that the counter always equals the number of operations performed. -/
theorem C3_counterexample :
    runCacheOps c3pn [] [(0, .put c3PutDict), (31, .get)] = .ok ([c3Entry], 1)
    ∧ [((0 : Int), CacheOp.put c3PutDict), (31, CacheOp.get)].length = 2
    ∧ countOf [c3Entry] c3pn = 1 :=
  ⟨rfl, rfl, rfl⟩

/-- C3 witness: a put on day 0 then a fresh get on day 1 are both
tallied: the counter ends at 2 = 0 + 2 and has not decreased. -/
theorem C3_witness :
    countOf [{ c3Entry with fetch_count := 2 }] c3pn
        = countOf ([] : CacheState) c3pn + 2
    ∧ countOf ([] : CacheState) c3pn
        ≤ countOf [{ c3Entry with fetch_count := 2 }] c3pn :=
  C3_popularity_counter c3pn [(0, .put c3PutDict), (1, .get)] []
    [{ c3Entry with fetch_count := 2 }] 2
    (by
      intro t d h
      simp only [List.mem_cons] at h
      rcases h with h | h | h
      · have hd : d = c3PutDict := by
          injection h with h1 h2
          injection h2 with h3
        subst hd
        rfl
      · simp at h
      · exact absurd h (List.not_mem_nil _))
    rfl

/-! ## Claim C9 — normalization -/

/-- C9: identifier normalization (strip surrounding whitespace,
uppercase, remove internal spaces) is idempotent, and
`normalize("ep 1234567") = "EP1234567"`. -/
theorem C9_normalization_idempotent :
    (∀ x : List Nat, normalizePatent (normalizePatent x) = normalizePatent x)
    ∧ normalizePatent (strL "ep 1234567") = strL "EP1234567" :=
  ⟨normalizePatent_idem, by decide⟩

/-! ## Claims C7, C8, C10 — quota tracking -/

/-- C7: when a caller's window has expired (`now ≥ resetAt`), the next
check first resets the count to 0 and opens a fresh 30-day window, and
only then applies its own check-and-increment, so the call is admitted
(every configured tier limit is positive) no matter how exhausted the
prior window was; both limiter implementations behave alike. -/
theorem C7_window_rollover (u : Usage) (au : AdvUsage) (now r : Int)
    (limit : Nat) (hlim : 0 < limit)
    (hr : u.reset_date = some r) (hexp : r ≤ now)
    (haexp : au.reset_at ≤ now) :
    check_rate_limit u now limit =
      { allowed := true, remaining := limit - 1, limit := limit,
        usage := { count := 1, reset_date := some (now + quota_window_days) } }
    ∧ adv_check_rate_limit au now limit =
      (.admitted (limit - 1), { count := 1, reset_at := now + quota_window_days }) := by
  constructor
  · have hsr : should_reset u.reset_date now = true := by
      rw [hr]
      simpa [should_reset] using hexp
    unfold check_rate_limit
    rw [hsr]
    simp only [if_true]
    rw [if_neg (by simpa using hlim.ne')]
  · unfold adv_check_rate_limit
    rw [if_pos haexp]
    rw [if_neg (by simpa using hlim.ne')]

/-- C7 witness: a free-tier caller whose 20-request window filled up
before day 10 is admitted again on day 10. -/
theorem C7_window_rollover_witness :
    check_rate_limit ⟨20, some 10⟩ 10 20 =
      { allowed := true, remaining := 19, limit := 20,
        usage := { count := 1, reset_date := some 40 } }
    ∧ adv_check_rate_limit ⟨20, 10⟩ 10 20 =
      (.admitted 19, { count := 1, reset_at := 40 }) :=
  C7_window_rollover ⟨20, some 10⟩ ⟨20, 10⟩ 10 10 20
    (by decide) rfl (by decide) (by decide)

/-- C8 counterexample: the tier label `enterprise` is none of `free`,
`basic`, `pro`, yet the limiter wired into the endpoint maps it to a
hidden fourth limit of 999999 instead of the free tier's configured
limit of 20. -/
theorem C8_counterexample :
    get_tier_limit (strL "enterprise") = 999999
    ∧ rate_limit_free = 20
    ∧ get_tier_limit (strL "enterprise") ≠ rate_limit_free := by
  refine ⟨by decide, rfl, by decide⟩

/-- C8 (amended): a tier label whose lowercase form is none of `free`,
`basic`, `pro` or `enterprise` falls back to the free tier's limit in
the limiter wired into the endpoint, and the middleware limiter (which
knows no `enterprise` tier) applies the free limit to every label
other than `free`, `basic`, `pro`. -/
theorem C8_unknown_tier_free_limit (t : List Nat)
    (h1 : pyLower t ≠ strL "free") (h2 : pyLower t ≠ strL "basic")
    (h3 : pyLower t ≠ strL "pro") (h4 : pyLower t ≠ strL "enterprise") :
    get_tier_limit t = rate_limit_free
    ∧ (∀ s : List Nat, s ≠ strL "free" → s ≠ strL "basic" → s ≠ strL "pro" →
        adv_get_limit s = rate_limit_free) := by
  constructor
  · unfold get_tier_limit
    rw [if_neg h1, if_neg h2, if_neg h3, if_neg h4]
  · intro s g1 g2 g3
    unfold adv_get_limit
    rw [if_neg g1, if_neg g2, if_neg g3]

/-- C8 witness: the unknown label `gold` gets the free limit in both
limiters. -/
theorem C8_unknown_tier_witness :
    get_tier_limit (strL "gold") = rate_limit_free
    ∧ adv_get_limit (strL "gold") = rate_limit_free := by
  have h := C8_unknown_tier_free_limit (strL "gold")
    (by decide) (by decide) (by decide) (by decide)
  exact ⟨h.1, h.2 (strL "gold") (by decide) (by decide) (by decide)⟩

def AdvOutcome.isAdmitted : AdvOutcome → Bool
  | .admitted _ => true
  | .rateLimited _ => false

theorem check_rate_limit_count_le (u : Usage) (now : Int) (limit : Nat)
    (hlim : 0 < limit) (hc : u.count ≤ limit) :
    (check_rate_limit u now limit).usage.count ≤ limit := by
  unfold check_rate_limit
  by_cases hsr : should_reset u.reset_date now = true
  · rw [if_pos hsr]
    by_cases hge : (0 : Nat) ≥ limit
    · rw [if_pos (by simpa using hge)]
      omega
    · rw [if_neg (by simpa using hge)]
      simpa using hlim
  · rw [if_neg hsr]
    by_cases hge : u.count ≥ limit
    · rw [if_pos (by simpa using hge)]
      exact hc
    · rw [if_neg (by simpa using hge)]
      simp only []
      omega

theorem run_rate_limiter_count_le (limit : Nat) (hlim : 0 < limit) :
    ∀ (ts : List Int) (u : Usage), u.count ≤ limit →
      (run_rate_limiter limit u ts).count ≤ limit := by
  intro ts
  induction ts with
  | nil => intro u h; exact h
  | cons t ts ih =>
    intro u h
    unfold run_rate_limiter
    exact ih _ (check_rate_limit_count_le u t limit hlim h)

/-- C10: a rejected check leaves the stored record for the key exactly
as it was and reports `remaining = 0` (in the endpoint-wired limiter);
the middleware limiter likewise leaves the record untouched whenever
it rejects; an admitted check is precisely an increment of the
post-rollover count; and across any sequential run the stored count
never exceeds the limit. -/
theorem C10_reject_leaves_state (u : Usage) (au : AdvUsage) (now : Int)
    (limit : Nat) (hlim : 0 < limit) :
    ((check_rate_limit u now limit).allowed = false →
      (check_rate_limit u now limit).usage = u ∧
      (check_rate_limit u now limit).remaining = 0)
    ∧ ((check_rate_limit u now limit).allowed = true →
      (check_rate_limit u now limit).usage.count =
        (if should_reset u.reset_date now then 0 else u.count) + 1)
    ∧ ((adv_check_rate_limit au now limit).fst.isAdmitted = false →
      (adv_check_rate_limit au now limit).snd = au)
    ∧ (∀ ts : List Int, u.count ≤ limit →
      (run_rate_limiter limit u ts).count ≤ limit) := by
  refine ⟨?_, ?_, ?_, fun ts h => run_rate_limiter_count_le limit hlim ts u h⟩
  · intro hrej
    unfold check_rate_limit at hrej ⊢
    by_cases hsr : should_reset u.reset_date now = true
    · rw [if_pos hsr] at hrej ⊢
      rw [if_neg (by simpa using hlim.ne')] at hrej
      simp at hrej
    · rw [if_neg hsr] at hrej ⊢
      by_cases hge : u.count ≥ limit
      · rw [if_pos (by simpa using hge)]
        exact ⟨rfl, rfl⟩
      · rw [if_neg (by simpa using hge)] at hrej
        simp at hrej
  · intro hadm
    unfold check_rate_limit at hadm ⊢
    by_cases hsr : should_reset u.reset_date now = true
    · rw [if_pos hsr] at hadm ⊢
      rw [if_neg (by simpa using hlim.ne')]
      simp [hsr]
    · rw [if_neg hsr] at hadm ⊢
      by_cases hge : u.count ≥ limit
      · rw [if_pos (by simpa using hge)] at hadm
        simp at hadm
      · rw [if_neg (by simpa using hge)]
        simp [hsr]
  · intro hrej
    unfold adv_check_rate_limit at hrej ⊢
    by_cases hexp : now ≥ au.reset_at
    · rw [if_pos hexp] at hrej ⊢
      rw [if_neg (by simpa using hlim.ne')] at hrej
      simp [AdvOutcome.isAdmitted] at hrej
    · rw [if_neg hexp] at hrej ⊢
      by_cases hge : au.count ≥ limit
      · rw [if_pos (by simpa using hge)]
      · rw [if_neg (by simpa using hge)] at hrej
        simp [AdvOutcome.isAdmitted] at hrej

/-- C10 witness: a full free-tier window (20 of 20 used, resets at day
100) rejects a check on day 5 without touching the stored record,
reporting zero remaining, in both limiters, and a three-call run stays
within the limit. -/
theorem C10_witness :
    (check_rate_limit ⟨20, some 100⟩ 5 20).usage = ⟨20, some 100⟩
    ∧ (check_rate_limit ⟨20, some 100⟩ 5 20).remaining = 0
    ∧ (adv_check_rate_limit ⟨20, 100⟩ 5 20).snd = ⟨20, 100⟩
    ∧ (run_rate_limiter 20 ⟨20, some 100⟩ [1, 2, 3]).count ≤ 20 := by
  have h := C10_reject_leaves_state ⟨20, some 100⟩ ⟨20, 100⟩ 5 20 (by decide)
  exact ⟨(h.1 (by decide)).1, (h.1 (by decide)).2,
    h.2.2.1 (by decide), h.2.2.2 [1, 2, 3] (by decide)⟩

/-! ## Claim C2 — cache freshness -/

def c2Entry : CacheEntry :=
  { patent_number := strL "EP0683520", status := some (.vStr (strL "Granted")),
    expiry_date := none, jurisdictions := none, lapse_reason := none,
    source := some (.vStr (strL "EPO")), raw_data := none,
    last_fetched := 0, fetch_count := 1 }

/-- C2 counterexample: a read at exactly `T' - T = TTL` (day 30 of an
entry fetched on day 0, TTL 30 days) satisfies the claim's miss
condition `T' - T ≥ TTL`, yet the code's strict comparison
`last_fetched < now - ttl` answers a hit. -/
theorem C2_counterexample :
    cache_ttl_days ≤ (30 : Int) - 0
    ∧ (get_cached_patent [c2Entry] 30 (strL "EP0683520")).fst.isSome = true :=
  ⟨by decide, rfl⟩

/-- C2 (amended): a cached entry is returned as a hit iff
`now - last_fetched ≤ TTL` (the boundary read at exactly TTL is still
a hit); a strictly older entry is treated as absent while the store is
left unchanged — the stale entry is not deleted and remains listed by
`get_stale_patents`. -/
theorem C2_cache_freshness (st : CacheState) (now : Int) (pn : List Nat)
    (e : CacheEntry) (h : findEntry st pn = some e) :
    ((get_cached_patent st now pn).fst.isSome = true ↔
      now - e.last_fetched ≤ cache_ttl_days)
    ∧ (cache_ttl_days < now - e.last_fetched →
      get_cached_patent st now pn = (none, st)
      ∧ e ∈ get_stale_patents st now st.length) := by
  constructor
  · unfold get_cached_patent
    simp only [h]
    by_cases hs : e.last_fetched < now - cache_ttl_days
    · rw [if_pos hs]
      simp only [Option.isSome_none, Bool.false_eq_true, false_iff]
      omega
    · rw [if_neg hs]
      simp only [Option.isSome_some, true_iff]
      omega
  · intro hstale
    have hs : e.last_fetched < now - cache_ttl_days := by omega
    constructor
    · unfold get_cached_patent
      simp only [h]
      rw [if_pos hs]
    · unfold get_stale_patents
      have hfind : List.find? (fun x : CacheEntry => x.patent_number == pn) st
          = some e := h
      have hmem : e ∈ st.filter
          (fun x => decide (x.last_fetched < now - cache_ttl_days)) := by
        rw [List.mem_filter]
        exact ⟨List.mem_of_find?_eq_some hfind, by simpa using hs⟩
      have hlen : (sortByCountDesc (st.filter
          (fun x => decide (x.last_fetched < now - cache_ttl_days)))).length
          ≤ st.length := by
        rw [length_sortByCountDesc]
        exact List.length_filter_le _ _
      rw [List.take_of_length_le hlen]
      exact (mem_sortByCountDesc _ _).mpr hmem

/-- C2 witness: the day-0 entry read on day 40 misses without being
deleted and shows up in the stale list. -/
theorem C2_witness :
    get_cached_patent [c2Entry] 40 (strL "EP0683520") = (none, [c2Entry])
    ∧ c2Entry ∈ get_stale_patents [c2Entry] 40 1 := by
  have h := C2_cache_freshness [c2Entry] 40 (strL "EP0683520") c2Entry rfl
  exact h.2 (by decide)

/-! ## Claims C1, C6 — endpoint validation and USPTO NotFound -/

theorem handleRequest_outcome_of_valid (oracle : AdapterOracle) (st : CacheState)
    (now : Int) (raw : List Nat)
    (hc : (strStarts (strL "EP") (normalizePatent raw)
        || strStarts (strL "US") (normalizePatent raw)) = true) :
    (handleRequest oracle st now raw).outcome ≠ ApiOutcome.validationError := by
  unfold handleRequest
  rw [if_pos hc]
  cases hx : (patentServiceGetStatus oracle st now (normalizePatent raw)).outcome with
  | error e => simp [hx]
  | ok od =>
    cases od with
    | none => simp [hx]
    | some d =>
      rcases hdp : dictPop d (strL "cache_hit") with ⟨chv, d'⟩
      simp [hx, hdp]

/-- C1 (amended): the endpoint rejects with ValidationError exactly
when the normalized input starts with neither `EP` nor `US` — a weaker
test than the spec's full `^(EP|US)\d\x7b7,\x7d` pattern — and the
rejection happens before any cache or adapter access: no adapter call
is made and the cache state is untouched; in particular resolving
`XX1234567` yields ValidationError with zero adapter calls and an
unchanged cache. -/
theorem C1_validation (oracle : AdapterOracle) (st : CacheState) (now : Int)
    (raw : List Nat) :
    ((handleRequest oracle st now raw).outcome = .validationError ↔
      (strStarts (strL "EP") (normalizePatent raw) = false ∧
       strStarts (strL "US") (normalizePatent raw) = false))
    ∧ ((handleRequest oracle st now raw).outcome = .validationError →
        handleRequest oracle st now raw = ⟨.validationError, st, 0, 0⟩)
    ∧ handleRequest oracle st now (strL "XX1234567") = ⟨.validationError, st, 0, 0⟩ := by
  have hx : ∀ cond : Bool, cond = false →
      cond = (strStarts (strL "EP") (normalizePatent raw)
        || strStarts (strL "US") (normalizePatent raw)) →
      handleRequest oracle st now raw = ⟨.validationError, st, 0, 0⟩ := by
    intro cond hcf hce
    unfold handleRequest
    rw [if_neg (by rw [← hce, hcf]; simp)]
  refine ⟨?_, ?_, ?_⟩
  · by_cases hc : (strStarts (strL "EP") (normalizePatent raw)
        || strStarts (strL "US") (normalizePatent raw)) = true
    · refine iff_of_false (handleRequest_outcome_of_valid oracle st now raw hc) ?_
      intro ⟨hf1, hf2⟩
      rw [hf1, hf2] at hc
      simp at hc
    · have hcf := Bool.eq_false_iff.mpr hc
      have heq := hx _ hcf rfl
      rw [heq]
      refine iff_of_true rfl ?_
      simp only [Bool.or_eq_false_iff] at hcf
      exact ⟨hcf.1, hcf.2⟩
  · intro hv
    by_cases hc : (strStarts (strL "EP") (normalizePatent raw)
        || strStarts (strL "US") (normalizePatent raw)) = true
    · exact absurd hv (handleRequest_outcome_of_valid oracle st now raw hc)
    · exact hx _ (Bool.eq_false_iff.mpr hc) rfl
  · unfold handleRequest
    rw [if_neg (by decide)]

/-- C1 witness: `QQ123` is rejected before any cache or adapter work. -/
theorem C1_witness :
    handleRequest ⟨none, none⟩ [] 0 (strL "QQ123") = ⟨.validationError, [], 0, 0⟩ :=
  (C1_validation ⟨none, none⟩ [] 0 (strL "QQ123")).2.1 (by rfl)

/-- C1 counterexample: `EP12` fails the spec's pattern (it lacks seven
digits), yet the endpoint does not reject it — it reaches the service
and ends in NotFound — so rejection does not happen exactly when the
pattern fails. -/
theorem C1_counterexample :
    matchesIdPattern (normalizePatent (strL "EP12")) = false
    ∧ (handleRequest ⟨none, none⟩ [] 0 (strL "EP12")).outcome = .notFound :=
  ⟨by decide, rfl⟩

/-- C6: when the USPTO adapter reports no match for a US identifier
(and the identifier is not freshly cached), resolution surfaces a
terminal NotFound (HTTP 404) and writes nothing to the cache: the
store after the request is exactly the store before it. -/
theorem C6_uspto_notfound (oracle : AdapterOracle) (st : CacheState) (now : Int)
    (raw : List Nat)
    (hus : strStarts (strL "US") (normalizePatent raw) = true)
    (hresp : oracle.usptoResp = none)
    (hmiss : (get_cached_patent st now (normalizePatent raw)).fst = none) :
    handleRequest oracle st now raw = ⟨.notFound, st, 0, 1⟩ := by
  have hpair := get_cached_patent_miss_state st now (normalizePatent raw) hmiss
  have hep : strStarts (strL "EP") (normalizePatent raw) = false :=
    strStarts_US_not_EP hus
  have hidem := normalizePatent_idem raw
  unfold handleRequest
  rw [if_pos (by rw [hus]; simp)]
  unfold patentServiceGetStatus
  rw [hidem]
  simp only [hpair, hep, hus, hresp, Bool.false_eq_true, if_false, if_true]

/-- C6 witness: resolving `US9999999` against an adapter with no match
and an empty cache gives 404 and leaves the cache empty. -/
theorem C6_witness :
    handleRequest ⟨none, none⟩ [] 0 (strL "US9999999") = ⟨.notFound, [], 0, 1⟩ :=
  C6_uspto_notfound ⟨none, none⟩ [] 0 (strL "US9999999") (by decide) rfl rfl

/-! ## Claims C4, C5 — adapter retry policy and write-through -/

/-- C4 counterexample: against a data endpoint that persistently
answers 500 (with authentication succeeding), one EPO fetch issues
exactly one data request — there is no retry at all, although the
configured maximum (`max_retries = 3`) would allow more. -/
theorem C4_counterexample : ¬ epoRetriesOnTransient := by
  intro h
  have h2 := h ⟨200, strL "tok", 500⟩ 0 (by decide) (by decide) rfl
  exact absurd h2 (by decide)

/-- C4 (amended): every external call carries the bounded 30-second
timeout, but nothing is ever retried: each endpoint receives at most
one request per fetch (the configured `max_retries = 3` is unused by
the adapters), and every failing or non-200 answer — 4xx and 5xx
alike — yields `None` rather than a distinguished AdapterError, with
no exception escaping. -/
theorem C4_bounded_timeout_no_retry (tok : EpoToken) (now : Int) (net : EpoNet)
    (unet : UsptoNet) :
    (epoGetPatentStatus tok now net).tokenAttempts ≤ 1
    ∧ (epoGetPatentStatus tok now net).dataAttempts ≤ 1
    ∧ (usptoGetPatentStatus unet).attempts = 1
    ∧ (net.dataStatus ≠ 200 → (epoGetPatentStatus tok now net).found = false)
    ∧ (unet.status ≠ 200 → (usptoGetPatentStatus unet).found = false)
    ∧ 0 < epoHttpTimeout ∧ 0 < usptoHttpTimeout ∧ max_retries = 3 := by
  refine ⟨?_, ?_, ?_, ?_, ?_, by decide, by decide, rfl⟩
  · unfold epoGetPatentStatus
    split_ifs <;> simp
  · unfold epoGetPatentStatus
    split_ifs <;> simp
  · unfold usptoGetPatentStatus
    split_ifs <;> rfl
  · intro hne
    unfold epoGetPatentStatus
    split_ifs <;> simp [hne]
  · intro hne
    unfold usptoGetPatentStatus
    rw [if_pos hne]

/-- C4 witness: a 503 from the EPO data endpoint and a 404 from the
USPTO endpoint both come back as `None`. -/
theorem C4_witness :
    (epoGetPatentStatus ⟨none, none⟩ 0 ⟨200, strL "tok", 503⟩).found = false
    ∧ (usptoGetPatentStatus ⟨404, false, false⟩).found = false := by
  have h := C4_bounded_timeout_no_retry ⟨none, none⟩ 0
    ⟨200, strL "tok", 503⟩ ⟨404, false, false⟩
  exact ⟨h.2.2.2.1 (by decide), h.2.2.2.2.1 (by decide)⟩

/-- The record `EPOService.get_patent_status` builds for EP0683520
(epo_service.py lines 92-103): the identifier is stored under the key
`patent_number`. -/
def epoRecordEP0683520 : PyDict :=
  [ (strL "patent_number", .vStr (strL "EP0683520"))
  , (strL "status", .vStr (strL "Granted"))
  , (strL "expiry_date", .vStr (strL "2015-05-18"))
  , (strL "jurisdictions", .vDict [(strL "primary", .vStr (strL "EP"))])
  , (strL "lapse_reason", .vNone)
  , (strL "source", .vStr (strL "EPO"))
  , (strL "raw_data", .vDict
      [ (strL "application_date", .vStr (strL "19950518"))
      , (strL "grant_date", .vStr (strL "20010704")) ]) ]

/-- C5 (code bug): resolving `EP0683520` with an empty cache and a
successful EPO fetch invokes the adapter exactly once, but the
write-through crashes: `save_patent_to_cache` reads
`patent_data["patent"]` (cache_service.py line 63) while every record
the resolver passes it keys the identifier as `patent_number`
(epo_service.py line 93, and the documented output format of
`_normalize_response`), so `KeyError` escapes, the request ends as
HTTP 500, nothing is cached, and a repeated resolution invokes the
adapter again instead of answering from the cache. -/
theorem C5_write_through_keyerror :
    dictGet epoRecordEP0683520 (strL "patent_number")
        = some (.vStr (strL "EP0683520"))
    ∧ dictGet epoRecordEP0683520 (strL "patent") = none
    ∧ handleRequest ⟨some epoRecordEP0683520, none⟩ [] 0 (strL "EP0683520")
        = ⟨.internalError, [], 1, 0⟩
    ∧ (handleRequest ⟨some epoRecordEP0683520, none⟩ [] 1
        (strL "EP0683520")).epoCalls = 1 :=
  ⟨rfl, rfl, rfl, rfl⟩
